import Mathlib

/-!
Shallow embedding of the two-tower recommendation models of this repository
(`BasicTwoTowerModel` and `DeepTwoTowerModel`).

Tensors are embedded as lists of real numbers: a rank-1 tensor is a `Vec`
(`List ℝ`), a rank-2 tensor is a `Mat` (`List (List ℝ)`, a list of rows).
The TensorFlow.js operations used by the source are embedded as exact
real-number functions on these lists (`tf.matMul` with `transposeB = true`
becomes `matMulT`, `tf.gather` becomes `gather`, `tf.oneHot` becomes
`oneHotLabels`, `tf.losses.softmaxCrossEntropy` becomes
`softmaxCrossEntropy`, and so on).  Degenerate-shape guards that live inside
the tensor library rather than in this repository's code are mostly not
modelled: in particular `tf.oneHot` rejects any depth below 2, so the real
program aborts with a library error on batches of size 0 or 1 before the
loss is ever built, whereas this embedding computes the unguarded
mathematical value there; the loss and update semantics embedded below are
therefore faithful to the program on the batches it can actually process
(size at least 2).  One library check is modelled, because the deep item
tower's genre-width failure mode relies on it: the element-count check of
`tf.tensor2d(values, shape)`, in `DeepTwoTowerModel.itemForward`.

JavaScript in-place mutation of the model objects is embedded as explicit
state passing: each method that mutates the model returns the new model
state, and read-only methods return the (unchanged) state alongside their
result.

The source computes gradients through the TensorFlow.js reverse-mode
autodifferentiation engine (`optimizer.computeGradients(loss)`).  The
embedding spells those gradients out as the analytic derivatives of the
in-batch softmax cross-entropy loss with respect to each trainable
parameter, and embeds `tf.train.adam(0.001).applyGradients` as one
bias-corrected Adam step from freshly initialized (all-zero) moment
accumulators, which for a first step amounts to
`θ' = θ - lr * g / (sqrt (g * g) + ε)` entrywise.
-/

noncomputable section

namespace RecSys

abbrev Vec := List ℝ
abbrev Mat := List (List ℝ)

/-- Dot product of two vectors: `tf.sum(tf.mul(u, v), -1)` on rank-1 inputs. -/
def dotRL (u v : Vec) : ℝ := (List.zipWith (· * ·) u v).sum

/-- `tf.gather(table, indices)`: read rows of `table` by index. -/
def gather (table : Mat) (idx : List ℕ) : Mat := idx.map (fun i => table.getD i [])

/-- `tf.matMul(A, B, false, true)`: `A * Bᵀ`, entry `(i, j)` is `dot (A i) (B j)`. -/
def matMulT (A B : Mat) : Mat := A.map (fun r => B.map (fun c => dotRL r c))

/-- `tf.dot(M, v)` for a rank-2 `M` and rank-1 `v`: matrix-vector product. -/
def matVec (M : Mat) (v : Vec) : Vec := M.map (fun r => dotRL r v)

/-- `tf.oneHot(tf.range(0, B, 1, 'int32'), B)`: the `B × B` identity label matrix,
row `i` has a `1` exactly in column `i`.  The library's `oneHot` additionally
throws for any depth below 2, so the real program aborts before reaching the
loss on batches of size 0 or 1; that guard is not modelled here — on such
batches this definition still denotes the mathematical matrix, so no
behavioural conclusion about the program may be drawn from the sub-2
regime. -/
def oneHotLabels (B : ℕ) : Mat :=
  (List.range B).map (fun i => (List.range B).map (fun j => if j = i then (1 : ℝ) else 0))

/-- `log (Σ_j exp z_j)`; TensorFlow.js computes it max-shifted for stability,
which is the same real number. -/
def logSumExp (z : Vec) : ℝ := Real.log ((z.map Real.exp).sum)

/-- Per-row softmax cross-entropy as TensorFlow.js computes it:
`logSumExp z - Σ_j labels_j * z_j`. -/
def softmaxXentRow (labels z : Vec) : ℝ :=
  logSumExp z - (List.zipWith (· * ·) labels z).sum

/-- `tf.losses.softmaxCrossEntropy(labels, logits)` with the default reduction
(`SUM_BY_NONZERO_WEIGHTS` with unit weights): the mean of the per-row losses
over the `logits.length` rows.  On zero rows the library's reduction would be
`0/0 = NaN` (a state the program never reaches, `tf.oneHot` having already
thrown), while this embedding's real division yields `0`; the definition is
faithful on one or more rows. -/
def softmaxCrossEntropy (labels logits : Mat) : ℝ :=
  (List.zipWith softmaxXentRow labels logits).sum / (logits.length : ℝ)

/-- Softmax probability of class `j` for a row `z` of logits. -/
def softmaxP (z : Vec) (j : ℕ) : ℝ := Real.exp (z.getD j 0) / ((z.map Real.exp).sum)

/-! ### Adam (one step from freshly initialized moments)

`tf.train.adam(0.001)` with default hyperparameters (β₁ = 0.9, β₂ = 0.999,
ε = 1e-8).  On the first `applyGradients` call the moments start at zero, so
`m̂ = g`, `v̂ = g²`, and the update is `θ - lr * g / (sqrt (g²) + ε)`. -/

def learningRate : ℝ := 1 / 1000

def epsilonAdam : ℝ := 1 / 100000000

def adamFirstStep (g θ : ℝ) : ℝ :=
  θ - learningRate * (g / (Real.sqrt (g * g) + epsilonAdam))

/-- Apply the Adam first step entrywise to a vector, the entry at offset `k + i`
receiving gradient `g (k + i)`. -/
def adamVecFrom (g : ℕ → ℝ) : ℕ → Vec → Vec
  | _, [] => []
  | k, x :: xs => adamFirstStep (g k) x :: adamVecFrom g (k + 1) xs

/-- Apply the Adam first step entrywise to a matrix, entry `(r, d)` receiving
gradient `g r d`. -/
def adamMatFrom (g : ℕ → ℕ → ℝ) : ℕ → Mat → Mat
  | _, [] => []
  | r, row :: rest => adamVecFrom (g r) 0 row :: adamMatFrom g (r + 1) rest

def adamUpdateMat (g : ℕ → ℕ → ℝ) (W : Mat) : Mat := adamMatFrom g 0 W

def adamUpdateVec (g : ℕ → ℝ) (b : Vec) : Vec := adamVecFrom g 0 b

/-! ### Gradients of the in-batch softmax cross-entropy loss

The loss is `L = (1/B) Σ_i (logSumExp z_i - z_{i,i})` with
`z_{i,j} = dot (userEmbs i) (itemEmbs j)`.  Its derivative with respect to a
logit is `∂L/∂z_{i,j} = (softmax(z_i)_j - [i = j]) / B`. -/

def dLogits (logits : Mat) (B : ℕ) (i j : ℕ) : ℝ :=
  (softmaxP (logits.getD i []) j - if i = j then 1 else 0) / (B : ℝ)

/-- `∂L/∂(userEmbs p)_d = Σ_j ∂L/∂z_{p,j} * (itemEmbs j)_d`. -/
def perPosUserGrad (logits itemEmbs : Mat) (B p d : ℕ) : ℝ :=
  ((List.range B).map (fun j => dLogits logits B p j * ((itemEmbs.getD j []).getD d 0))).sum

/-- `∂L/∂(itemEmbs p)_d = Σ_i ∂L/∂z_{i,p} * (userEmbs i)_d`. -/
def perPosItemGrad (logits userEmbs : Mat) (B p d : ℕ) : ℝ :=
  ((List.range B).map (fun i => dLogits logits B i p * ((userEmbs.getD i []).getD d 0))).sum

/-- Scatter per-position gradients into a dense table gradient: row `r` of the
table accumulates the gradients of every batch position `p` with `idx p = r`;
rows not appearing in `idx` receive zero. -/
def scatterGrad (idx : List ℕ) (perPos : ℕ → ℕ → ℝ) (r d : ℕ) : ℝ :=
  (((List.range idx.length).filter (fun p => idx.getD p 0 = r)).map (fun p => perPos p d)).sum

/-! ### BasicTwoTowerModel -/

structure BasicTwoTowerModel where
  numUsers : ℕ
  numItems : ℕ
  embeddingDim : ℕ
  userEmbeddings : Mat
  itemEmbeddings : Mat

namespace BasicTwoTowerModel

/-- User tower: simple embedding lookup (`tf.gather(this.userEmbeddings, userIndices)`). -/
def userForward (s : BasicTwoTowerModel) (userIndices : List ℕ) : Mat :=
  gather s.userEmbeddings userIndices

/-- Item tower: simple embedding lookup. -/
def itemForward (s : BasicTwoTowerModel) (itemIndices : List ℕ) : Mat :=
  gather s.itemEmbeddings itemIndices

/-- Scoring function on batches: `tf.sum(tf.mul(u, v), -1)`, the per-row dot product. -/
def score (userEmbeddings itemEmbeddings : Mat) : Vec :=
  List.zipWith dotRL userEmbeddings itemEmbeddings

/-- Scoring function on single embeddings (rank-1 inputs to `tf.sum(tf.mul(u, v), -1)`). -/
def scoreVec (userEmbedding itemEmbedding : Vec) : ℝ := dotRL userEmbedding itemEmbedding

/-- The similarity matrix of `trainStep`:
`tf.matMul(userEmbs, itemEmbs, false, true)`. -/
def logitsOf (s : BasicTwoTowerModel) (userIndices itemIndices : List ℕ) : Mat :=
  matMulT (s.userForward userIndices) (s.itemForward itemIndices)

/-- The scalar loss of `trainStep`, evaluated on the current parameters:
softmax cross-entropy of the similarity matrix against the diagonal one-hot
labels `tf.oneHot(tf.range(0, B), B)`. -/
def lossValue (s : BasicTwoTowerModel) (userIndices itemIndices : List ℕ) : ℝ :=
  softmaxCrossEntropy (oneHotLabels userIndices.length) (s.logitsOf userIndices itemIndices)

/-- `trainStep(userIndices, itemIndices)`: computes the in-batch sampled
softmax loss, computes gradients with respect to both embedding tables
(`optimizer.computeGradients(loss)`), applies the Adam update
(`optimizer.applyGradients(grads)`), and returns the loss value together
with the updated model state. -/
def trainStep (s : BasicTwoTowerModel) (userIndices itemIndices : List ℕ) :
    ℝ × BasicTwoTowerModel :=
  let logits := s.logitsOf userIndices itemIndices
  let userEmbs := s.userForward userIndices
  let itemEmbs := s.itemForward itemIndices
  let gU := scatterGrad userIndices (perPosUserGrad logits itemEmbs userIndices.length)
  let gV := scatterGrad itemIndices (perPosItemGrad logits userEmbs userIndices.length)
  (s.lossValue userIndices itemIndices,
    { s with
      userEmbeddings := adamUpdateMat gU s.userEmbeddings
      itemEmbeddings := adamUpdateMat gV s.itemEmbeddings })

/-- `getUserEmbedding(userIndex)`: `this.userForward([userIndex]).squeeze()`.
Read-only: the state comes back unchanged. -/
def getUserEmbedding (s : BasicTwoTowerModel) (userIndex : ℕ) :
    Vec × BasicTwoTowerModel :=
  ((s.userForward [userIndex]).getD 0 [], s)

/-- `getScoresForAllItems(userEmbedding)`: `tf.dot(this.itemEmbeddings, userEmbedding)`.
Read-only: the state comes back unchanged. -/
def getScoresForAllItems (s : BasicTwoTowerModel) (userEmbedding : Vec) :
    Vec × BasicTwoTowerModel :=
  (matVec s.itemEmbeddings userEmbedding, s)

end BasicTwoTowerModel

/-! ### DeepTwoTowerModel -/

/-- Activation functions used by the `tf.layers.dense` configurations of the
deep model's constructor. -/
inductive Activation where
  | relu
  | linear
  deriving DecidableEq

def reluFun (x : ℝ) : ℝ := max x 0

def Activation.toFun : Activation → (ℝ → ℝ)
  | .relu => reluFun
  | .linear => fun x => x

/-- Weight initializers named by the constructor's layer configurations.
The sampled values themselves are randomness supplied at construction time;
the embedding records which initializer each slot is configured with. -/
inductive Initializer where
  | glorotNormal
  | zeros
  deriving DecidableEq

/-- The configuration record of one `tf.layers.dense({...})` call. -/
structure DenseConfig where
  units : ℕ
  activation : Activation
  useBias : Bool
  kernelInitializer : Initializer
  biasInitializer : Initializer
  deriving DecidableEq

/-- Error kinds named by the specification.  The only failure path present in
the source is the element-count check of `tf.tensor2d` inside the deep item
tower (`dimensionMismatch`); `invalidBatch` is declared because the
specification names it, but no code path produces it. -/
inductive ModelError where
  | invalidBatch
  | dimensionMismatch
  deriving DecidableEq

structure DeepTwoTowerModel where
  numUsers : ℕ
  numItems : ℕ
  embeddingDim : ℕ
  numGenres : ℕ
  userEmbeddings : Mat
  itemEmbeddings : Mat
  userHiddenKernel : Mat
  userHiddenBias : Vec
  userOutputKernel : Mat
  userOutputBias : Vec
  itemHiddenKernel : Mat
  itemHiddenBias : Vec
  itemOutputKernel : Mat
  itemOutputBias : Vec

namespace DeepTwoTowerModel

/-- `tf.layers.dense({units: embeddingDim * 2, activation: 'relu', useBias: true,
kernelInitializer: 'glorotNormal'})`; `biasInitializer` is not set in the
source, so it takes the `tf.layers.dense` default `'zeros'`. -/
def userHiddenConfig (s : DeepTwoTowerModel) : DenseConfig :=
  { units := s.embeddingDim * 2
    activation := .relu
    useBias := true
    kernelInitializer := .glorotNormal
    biasInitializer := .zeros }

/-- `tf.layers.dense({units: embeddingDim, activation: 'linear', useBias: true,
kernelInitializer: 'glorotNormal'})`, bias initializer defaulting to `'zeros'`. -/
def userOutputConfig (s : DeepTwoTowerModel) : DenseConfig :=
  { units := s.embeddingDim
    activation := .linear
    useBias := true
    kernelInitializer := .glorotNormal
    biasInitializer := .zeros }

/-- Item-tower hidden layer configuration (same shape as the user tower's). -/
def itemHiddenConfig (s : DeepTwoTowerModel) : DenseConfig :=
  { units := s.embeddingDim * 2
    activation := .relu
    useBias := true
    kernelInitializer := .glorotNormal
    biasInitializer := .zeros }

/-- Item-tower output layer configuration. -/
def itemOutputConfig (s : DeepTwoTowerModel) : DenseConfig :=
  { units := s.embeddingDim
    activation := .linear
    useBias := true
    kernelInitializer := .glorotNormal
    biasInitializer := .zeros }

end DeepTwoTowerModel

/-- Pre-activation output of a dense layer on one input row: for a kernel of
shape `[inDim, units]` and a bias of length `units`,
`y_u = Σ_k x_k * kernel[k][u] + bias_u`. -/
def denseAffine (kernel : Mat) (bias : Vec) (x : Vec) : Vec :=
  (List.range bias.length).map
    (fun u => dotRL x (kernel.map (fun row => row.getD u 0)) + bias.getD u 0)

/-- `layer.apply` on one input row: the affine map followed by the activation. -/
def denseApply (kernel : Mat) (bias : Vec) (act : ℝ → ℝ) (x : Vec) : Vec :=
  (denseAffine kernel bias x).map act

/-- Backpropagation of a dense layer to its input: given the gradient `dOut`
with respect to the layer's `units` outputs, the gradient with respect to
input coordinate `k` is `Σ_u dOut u * kernel[k][u]`. -/
def denseBackInput (kernel : Mat) (units : ℕ) (dOut : ℕ → ℝ) (k : ℕ) : ℝ :=
  ((List.range units).map (fun u => dOut u * ((kernel.getD k []).getD u 0))).sum

/-- Derivative of ReLU as TensorFlow.js computes it (`0` at the origin). -/
def reluGrad (a : ℝ) : ℝ := if 0 < a then 1 else 0

namespace DeepTwoTowerModel

/-- Encode one gathered user-embedding row through the user tower's two dense
layers (hidden ReLU layer, then linear output layer). -/
def userEncodeRow (s : DeepTwoTowerModel) (x : Vec) : Vec :=
  denseApply s.userOutputKernel s.userOutputBias (s.userOutputConfig.activation.toFun)
    (denseApply s.userHiddenKernel s.userHiddenBias (s.userHiddenConfig.activation.toFun) x)

/-- Deep user tower (`userForward`): embedding lookup, hidden layer, output layer. -/
def userForward (s : DeepTwoTowerModel) (userIndices : List ℕ) : Mat :=
  (gather s.userEmbeddings userIndices).map (s.userEncodeRow)

/-- Encode one concatenated `embedding ++ genres` row through the item tower's
two dense layers. -/
def itemEncodeRow (s : DeepTwoTowerModel) (x : Vec) : Vec :=
  denseApply s.itemOutputKernel s.itemOutputBias (s.itemOutputConfig.activation.toFun)
    (denseApply s.itemHiddenKernel s.itemHiddenBias (s.itemHiddenConfig.activation.toFun) x)

/-- The matrix the item tower produces once the genre tensor has been built:
each gathered item-embedding row is concatenated with its genre row
(`tf.concat([itemEmbs, genreTensor], 1)`) and encoded. -/
def itemEmbsRaw (s : DeepTwoTowerModel) (itemIndices : List ℕ) (genreFeatures : Mat) : Mat :=
  List.zipWith (fun e g => s.itemEncodeRow (e ++ g))
    (gather s.itemEmbeddings itemIndices) genreFeatures

/-- Deep item tower (`itemForward`): building the genre tensor with
`tf.tensor2d(genreFeatures, [itemIndices.length, this.numGenres])` checks that
the provided values have exactly `itemIndices.length * numGenres` elements and
throws otherwise; that check is the `DimensionMismatch` failure. -/
def itemForward (s : DeepTwoTowerModel) (itemIndices : List ℕ) (genreFeatures : Mat) :
    Except ModelError Mat :=
  if (genreFeatures.map List.length).sum = itemIndices.length * s.numGenres then
    .ok (s.itemEmbsRaw itemIndices genreFeatures)
  else
    .error .dimensionMismatch

/-- Scoring function: per-row dot product, identical to the basic model's. -/
def score (userEmbeddings itemEmbeddings : Mat) : Vec :=
  List.zipWith dotRL userEmbeddings itemEmbeddings

/-- The similarity matrix of the deep `trainStep`. -/
def logitsOf (s : DeepTwoTowerModel) (userIndices itemIndices : List ℕ)
    (genreFeatures : Mat) : Mat :=
  matMulT (s.userForward userIndices) (s.itemEmbsRaw itemIndices genreFeatures)

/-- The scalar loss of the deep `trainStep`, evaluated on the current
parameters. -/
def lossValue (s : DeepTwoTowerModel) (userIndices itemIndices : List ℕ)
    (genreFeatures : Mat) : ℝ :=
  softmaxCrossEntropy (oneHotLabels userIndices.length)
    (s.logitsOf userIndices itemIndices genreFeatures)

/-! Backward pass: analytic gradients of `lossValue` with respect to each of
the ten trainable parameter groups.  Notation per batch position `p`:
`xU p` is the gathered user-embedding row, `aU p` the user hidden layer's
pre-activation, `hU p` its ReLU output; `xI p`, `aI p`, `hI p` are the item
tower's analogues on the concatenated `embedding ++ genres` input. -/

def xU (s : DeepTwoTowerModel) (us : List ℕ) (p : ℕ) : Vec :=
  (gather s.userEmbeddings us).getD p []

def aU (s : DeepTwoTowerModel) (us : List ℕ) (p : ℕ) : Vec :=
  denseAffine s.userHiddenKernel s.userHiddenBias (s.xU us p)

def hU (s : DeepTwoTowerModel) (us : List ℕ) (p : ℕ) : Vec :=
  (s.aU us p).map reluFun

def xI (s : DeepTwoTowerModel) (is : List ℕ) (gs : Mat) (p : ℕ) : Vec :=
  (gather s.itemEmbeddings is).getD p [] ++ gs.getD p []

def aI (s : DeepTwoTowerModel) (is : List ℕ) (gs : Mat) (p : ℕ) : Vec :=
  denseAffine s.itemHiddenKernel s.itemHiddenBias (s.xI is gs p)

def hI (s : DeepTwoTowerModel) (is : List ℕ) (gs : Mat) (p : ℕ) : Vec :=
  (s.aI is gs p).map reluFun

/-- Gradient of the loss with respect to the user tower's output row `p`
(coordinate `u`): `Σ_j ∂L/∂z_{p,j} * (itemEmbs j)_u`. -/
def deltaUserOut (s : DeepTwoTowerModel) (us is : List ℕ) (gs : Mat) (p u : ℕ) : ℝ :=
  perPosUserGrad (s.logitsOf us is gs) (s.itemEmbsRaw is gs) us.length p u

/-- Gradient of the loss with respect to the item tower's output row `p`. -/
def deltaItemOut (s : DeepTwoTowerModel) (us is : List ℕ) (gs : Mat) (p u : ℕ) : ℝ :=
  perPosItemGrad (s.logitsOf us is gs) (s.userForward us) us.length p u

/-- Gradient with respect to the user hidden layer's pre-activation:
back through the output kernel, times the ReLU derivative. -/
def deltaUserAct (s : DeepTwoTowerModel) (us is : List ℕ) (gs : Mat) (p k : ℕ) : ℝ :=
  denseBackInput s.userOutputKernel s.userOutputBias.length (s.deltaUserOut us is gs p) k *
    reluGrad ((s.aU us p).getD k 0)

/-- Gradient with respect to the gathered user-embedding row `p`. -/
def deltaUserIn (s : DeepTwoTowerModel) (us is : List ℕ) (gs : Mat) (p d : ℕ) : ℝ :=
  denseBackInput s.userHiddenKernel s.userHiddenBias.length (s.deltaUserAct us is gs p) d

/-- Gradient with respect to the item hidden layer's pre-activation. -/
def deltaItemAct (s : DeepTwoTowerModel) (us is : List ℕ) (gs : Mat) (p k : ℕ) : ℝ :=
  denseBackInput s.itemOutputKernel s.itemOutputBias.length (s.deltaItemOut us is gs p) k *
    reluGrad ((s.aI is gs p).getD k 0)

/-- Gradient with respect to the concatenated `embedding ++ genres` input row
`p`; its first `embeddingDim` coordinates are the gradient of the gathered
item-embedding row (the genre tensor is not trainable). -/
def deltaItemIn (s : DeepTwoTowerModel) (us is : List ℕ) (gs : Mat) (p d : ℕ) : ℝ :=
  denseBackInput s.itemHiddenKernel s.itemHiddenBias.length (s.deltaItemAct us is gs p) d

/-- Kernel gradient of a dense layer: `∂L/∂W[k][u] = Σ_p (input p)_k * (dOut p)_u`. -/
def denseKernelGrad (B : ℕ) (input : ℕ → Vec) (dOut : ℕ → ℕ → ℝ) (k u : ℕ) : ℝ :=
  ((List.range B).map (fun p => (input p).getD k 0 * dOut p u)).sum

/-- Bias gradient of a dense layer: `∂L/∂b_u = Σ_p (dOut p)_u`. -/
def denseBiasGrad (B : ℕ) (dOut : ℕ → ℕ → ℝ) (u : ℕ) : ℝ :=
  ((List.range B).map (fun p => dOut p u)).sum

/-- `trainStep(userIndices, itemIndices, genreFeatures)`: builds the genre
tensor (propagating its element-count failure), computes the in-batch sampled
softmax loss and its gradients with respect to all ten trainable parameter
groups, applies the Adam update to every one of them, and returns the loss
together with the updated state. -/
def trainStep (s : DeepTwoTowerModel) (userIndices itemIndices : List ℕ)
    (genreFeatures : Mat) : Except ModelError (ℝ × DeepTwoTowerModel) :=
  match s.itemForward itemIndices genreFeatures with
  | .error e => .error e
  | .ok _ =>
    let B := userIndices.length
    let gUserTable := scatterGrad userIndices (s.deltaUserIn userIndices itemIndices genreFeatures)
    let gItemTable := scatterGrad itemIndices (s.deltaItemIn userIndices itemIndices genreFeatures)
    let gUserHidK := denseKernelGrad B (s.xU userIndices)
      (s.deltaUserAct userIndices itemIndices genreFeatures)
    let gUserHidB := denseBiasGrad B (s.deltaUserAct userIndices itemIndices genreFeatures)
    let gUserOutK := denseKernelGrad B (s.hU userIndices)
      (s.deltaUserOut userIndices itemIndices genreFeatures)
    let gUserOutB := denseBiasGrad B (s.deltaUserOut userIndices itemIndices genreFeatures)
    let gItemHidK := denseKernelGrad B (s.xI itemIndices genreFeatures)
      (s.deltaItemAct userIndices itemIndices genreFeatures)
    let gItemHidB := denseBiasGrad B (s.deltaItemAct userIndices itemIndices genreFeatures)
    let gItemOutK := denseKernelGrad B (s.hI itemIndices genreFeatures)
      (s.deltaItemOut userIndices itemIndices genreFeatures)
    let gItemOutB := denseBiasGrad B (s.deltaItemOut userIndices itemIndices genreFeatures)
    .ok (s.lossValue userIndices itemIndices genreFeatures,
      { s with
        userEmbeddings := adamUpdateMat gUserTable s.userEmbeddings
        itemEmbeddings := adamUpdateMat gItemTable s.itemEmbeddings
        userHiddenKernel := adamUpdateMat gUserHidK s.userHiddenKernel
        userHiddenBias := adamUpdateVec gUserHidB s.userHiddenBias
        userOutputKernel := adamUpdateMat gUserOutK s.userOutputKernel
        userOutputBias := adamUpdateVec gUserOutB s.userOutputBias
        itemHiddenKernel := adamUpdateMat gItemHidK s.itemHiddenKernel
        itemHiddenBias := adamUpdateVec gItemHidB s.itemHiddenBias
        itemOutputKernel := adamUpdateMat gItemOutK s.itemOutputKernel
        itemOutputBias := adamUpdateVec gItemOutB s.itemOutputBias })

/-- `getUserEmbedding(userIndex)`: `this.userForward([userIndex]).squeeze()`.
Read-only: the state comes back unchanged. -/
def getUserEmbedding (s : DeepTwoTowerModel) (userIndex : ℕ) :
    Vec × DeepTwoTowerModel :=
  ((s.userForward [userIndex]).getD 0 [], s)

/-- The chunked all-items scoring loop of `getScoresForAllItems`, with the
chunk size as a parameter (the source fixes `batchSize = 100`):
`numBatches = ceil(numItems / chunkSize)` chunks; chunk `i` covers indices
`[i * chunkSize, min (i * chunkSize + chunkSize) numItems)`, is encoded with
all-zero genre features (`Array(this.numGenres).fill(0)` per row), scored
against the fixed user embedding with `tf.dot`, and the chunk scores are
concatenated in order.  `scoreChunk` is the body of iteration `i` of the
loop; `scoresChunked` concatenates the chunks. -/
def scoreChunk (s : DeepTwoTowerModel) (chunkSize : ℕ) (userEmbedding : Vec) (i : ℕ) : Vec :=
  let start := i * chunkSize
  let stop := min (start + chunkSize) s.numItems
  let batchIndices := (List.range (stop - start)).map (fun j => start + j)
  let batchGenreFeatures : Mat := batchIndices.map (fun _ => List.replicate s.numGenres 0)
  match s.itemForward batchIndices batchGenreFeatures with
  | .ok m => m.map (fun row => dotRL row userEmbedding)
  | .error _ => []

def scoresChunked (s : DeepTwoTowerModel) (chunkSize : ℕ) (userEmbedding : Vec) : Vec :=
  let numBatches := (s.numItems + chunkSize - 1) / chunkSize
  (List.range numBatches).flatMap (s.scoreChunk chunkSize userEmbedding)

/-- `getScoresForAllItems(userEmbedding)` with the source's chunk size of 100.
Read-only: the state comes back unchanged. -/
def getScoresForAllItems (s : DeepTwoTowerModel) (userEmbedding : Vec) :
    Vec × DeepTwoTowerModel :=
  (s.scoresChunked 100 userEmbedding, s)

/-- The unchunked all-items computation: every item index in `[0, numItems)`
in order, encoded with all-zero genre features and scored against the user
embedding. -/
def scoresAll (s : DeepTwoTowerModel) (userEmbedding : Vec) : Vec :=
  (List.range s.numItems).map (fun i =>
    dotRL (s.itemEncodeRow (s.itemEmbeddings.getD i [] ++ List.replicate s.numGenres 0))
      userEmbedding)

end DeepTwoTowerModel

/-! ### Concrete model instances (used to instantiate theorems on closed inputs) -/

/-- A one-user, one-item basic model with embedding width 1 and all table
entries equal to 1. -/
def basicState0 : BasicTwoTowerModel :=
  { numUsers := 1, numItems := 1, embeddingDim := 1
    userEmbeddings := [[1]], itemEmbeddings := [[1]] }

/-- A two-user, two-item basic model with embedding width 1 in which every
table row is the same vector `[1]`. -/
def basicState2 : BasicTwoTowerModel :=
  { numUsers := 2, numItems := 2, embeddingDim := 1
    userEmbeddings := [[1], [1]], itemEmbeddings := [[1], [1]] }

/-- A one-user, one-item deep model with embedding width 1 and one genre. -/
def deepState0 : DeepTwoTowerModel :=
  { numUsers := 1, numItems := 1, embeddingDim := 1, numGenres := 1
    userEmbeddings := [[1]], itemEmbeddings := [[1]]
    userHiddenKernel := [[1, 1]], userHiddenBias := [0, 0]
    userOutputKernel := [[1], [1]], userOutputBias := [0]
    itemHiddenKernel := [[1, 1], [1, 1]], itemHiddenBias := [0, 0]
    itemOutputKernel := [[1], [1]], itemOutputBias := [0] }

/-- A deep model with embedding width 1 and the MovieLens genre count 19. -/
def deepState19 : DeepTwoTowerModel :=
  { numUsers := 1, numItems := 1, embeddingDim := 1, numGenres := 19
    userEmbeddings := [[1]], itemEmbeddings := [[1]]
    userHiddenKernel := [[1, 1]], userHiddenBias := [0, 0]
    userOutputKernel := [[1], [1]], userOutputBias := [0]
    itemHiddenKernel := [], itemHiddenBias := [0, 0]
    itemOutputKernel := [], itemOutputBias := [0] }

/-- A copy of `deepState0` that differs only in the user-side parameters
(user embedding table and user-tower weights). -/
def deepState0UserVariant : DeepTwoTowerModel :=
  { deepState0 with
    userEmbeddings := [[2]], userHiddenKernel := [[3, 4]], userHiddenBias := [5, 6] }

/-! ### General list helper lemmas -/

lemma sum_map_range (f : ℕ → ℝ) (n : ℕ) :
    ((List.range n).map f).sum = ∑ i ∈ Finset.range n, f i := by
  induction n with
  | zero => simp
  | succ n ih => rw [List.range_succ, List.map_append, List.sum_append,
      Finset.sum_range_succ, ih]; simp

lemma zipWith_map_range {α β γ : Type} (G : α → β → γ) (dflt : β) :
    ∀ (z : List β) (a : ℕ → α),
      List.zipWith G ((List.range z.length).map a) z =
        (List.range z.length).map (fun i => G (a i) (z.getD i dflt)) := by
  intro z
  induction z with
  | nil => intro a; simp
  | cons b z ih =>
    intro a
    have hlen : (b :: z).length = z.length + 1 := rfl
    rw [hlen, List.range_succ_eq_map, List.map_cons, List.map_cons,
      List.zipWith_cons_cons, List.map_map, List.map_map]
    have h1 : List.zipWith G (List.map (a ∘ Nat.succ) (List.range z.length)) z =
        (List.range z.length).map (fun i => G ((a ∘ Nat.succ) i) (z.getD i dflt)) := ih _
    rw [h1]
    simp [Function.comp]

/-- Sums of a positive-valued map are positive (applied to `exp`). -/
lemma sum_map_exp_pos (z : Vec) (h : z ≠ []) : 0 < (z.map Real.exp).sum := by
  refine List.sum_pos _ (fun x hx => ?_) (by simpa using h)
  rcases List.mem_map.mp hx with ⟨y, _, rfl⟩
  exact Real.exp_pos y

/-! ### Adam helper lemmas -/

lemma adamFirstStep_zero (θ : ℝ) : adamFirstStep 0 θ = θ := by
  simp [adamFirstStep]

lemma sqrt_sq_add_eps_pos (g : ℝ) : 0 < Real.sqrt (g * g) + epsilonAdam := by
  have h1 : (0 : ℝ) < epsilonAdam := by norm_num [epsilonAdam]
  exact add_pos_of_nonneg_of_pos (Real.sqrt_nonneg _) h1

lemma adamFirstStep_eq_self_iff (g θ : ℝ) : adamFirstStep g θ = θ ↔ g = 0 := by
  constructor
  · intro h
    have hlr : (learningRate : ℝ) ≠ 0 := by norm_num [learningRate]
    rw [adamFirstStep] at h
    have h2 : learningRate * (g / (Real.sqrt (g * g) + epsilonAdam)) = 0 :=
      sub_eq_self.mp h
    have h3 : g / (Real.sqrt (g * g) + epsilonAdam) = 0 :=
      (mul_eq_zero.mp h2).resolve_left hlr
    rcases div_eq_zero_iff.mp h3 with hg | hden
    · exact hg
    · exact absurd hden (ne_of_gt (sqrt_sq_add_eps_pos g))
  · rintro rfl; exact adamFirstStep_zero θ

lemma adamVecFrom_zero (g : ℕ → ℝ) (h : ∀ k, g k = 0) :
    ∀ (k : ℕ) (xs : Vec), adamVecFrom g k xs = xs := by
  intro k xs
  induction xs generalizing k with
  | nil => rfl
  | cons x xs ih => simp [adamVecFrom, h, adamFirstStep_zero, ih]

lemma adamVecFrom_eq_self_iff (g : ℕ → ℝ) :
    ∀ (xs : Vec) (k : ℕ), adamVecFrom g k xs = xs ↔ ∀ i < xs.length, g (k + i) = 0 := by
  intro xs
  induction xs with
  | nil => intro k; simp [adamVecFrom]
  | cons x xs ih =>
    intro k
    constructor
    · intro h i hi
      have hcons := h
      rw [adamVecFrom] at hcons
      have hhead : adamFirstStep (g k) x = x := (List.cons_eq_cons.mp hcons).1
      have htail : adamVecFrom g (k + 1) xs = xs := (List.cons_eq_cons.mp hcons).2
      match i with
      | 0 => simpa using (adamFirstStep_eq_self_iff _ _).mp hhead
      | j + 1 =>
        have hj : j < xs.length := by simpa [List.length_cons] using hi
        have := (ih (k + 1)).mp htail j hj
        simpa [Nat.add_comm, Nat.add_assoc, Nat.add_left_comm] using this
    · intro h
      rw [adamVecFrom]
      have hhead : g k = 0 := by simpa using h 0 (by simp)
      have htail : ∀ i < xs.length, g (k + 1 + i) = 0 := by
        intro i hi
        have := h (i + 1) (by simpa [List.length_cons] using Nat.succ_lt_succ hi)
        simpa [Nat.add_comm, Nat.add_assoc, Nat.add_left_comm] using this
      rw [hhead, adamFirstStep_zero, (ih (k + 1)).mpr htail]

lemma adamMatFrom_getD (g : ℕ → ℕ → ℝ) :
    ∀ (W : Mat) (r0 r : ℕ),
      (adamMatFrom g r0 W).getD r [] = adamVecFrom (g (r0 + r)) 0 (W.getD r []) := by
  intro W
  induction W with
  | nil => intro r0 r; simp [adamMatFrom, adamVecFrom]
  | cons row rest ih =>
    intro r0 r
    match r with
    | 0 => simp [adamMatFrom]
    | j + 1 =>
      have := ih (r0 + 1) j
      simpa [adamMatFrom, List.getD_cons_succ, Nat.add_comm, Nat.add_assoc,
        Nat.add_left_comm] using this

lemma adamUpdateMat_getD (g : ℕ → ℕ → ℝ) (W : Mat) (r : ℕ) :
    (adamUpdateMat g W).getD r [] = adamVecFrom (g r) 0 (W.getD r []) := by
  simpa using adamMatFrom_getD g W 0 r

lemma adamUpdateMat_zero (g : ℕ → ℕ → ℝ) (h : ∀ r d, g r d = 0) (W : Mat) :
    adamUpdateMat g W = W := by
  rw [adamUpdateMat]
  generalize 0 = r0
  induction W generalizing r0 with
  | nil => rfl
  | cons row rest ih => simp [adamMatFrom, adamVecFrom_zero _ (h r0), ih]

lemma adamUpdateVec_zero (g : ℕ → ℝ) (h : ∀ k, g k = 0) (b : Vec) :
    adamUpdateVec g b = b :=
  adamVecFrom_zero g h 0 b

/-- A row of an Adam-updated table is unchanged exactly when every gradient
entry feeding it (up to the row's width) is zero. -/
lemma adamUpdateMat_row_eq_self_iff (g : ℕ → ℕ → ℝ) (W : Mat) (r : ℕ) :
    (adamUpdateMat g W).getD r [] = W.getD r [] ↔
      ∀ d < (W.getD r []).length, g r d = 0 := by
  rw [adamUpdateMat_getD]
  simpa using adamVecFrom_eq_self_iff (g r) (W.getD r []) 0

/-! ### Scatter-gradient helper lemmas -/

lemma scatterGrad_not_mem (idx : List ℕ) (perPos : ℕ → ℕ → ℝ) (r : ℕ)
    (h : r ∉ idx) (d : ℕ) : scatterGrad idx perPos r d = 0 := by
  rw [scatterGrad]
  have hfilter : (List.range idx.length).filter (fun p => idx.getD p 0 = r) = [] := by
    rw [List.filter_eq_nil_iff]
    intro p hp
    have hplt : p < idx.length := List.mem_range.mp hp
    have hmem : idx.getD p 0 ∈ idx := by
      rw [List.getD_eq_getElem _ _ hplt]; exact List.getElem_mem hplt
    simp only [decide_eq_true_eq]
    intro heq
    exact h (heq ▸ hmem)
  rw [hfilter]; simp

lemma scatterGrad_nil (perPos : ℕ → ℕ → ℝ) (r d : ℕ) : scatterGrad [] perPos r d = 0 := by
  simp [scatterGrad]

/-! ### Evaluation of the deep step on the empty index lists

These are facts about the embedding only (used to instantiate hypotheses of
the shape `trainStep … = .ok …` on closed inputs): the real program would be
stopped by the library's `oneHot` depth guard before producing a value on an
empty batch, a guard this embedding does not model. -/

lemma denseKernelGrad_zero_batch (input : ℕ → Vec) (dOut : ℕ → ℕ → ℝ) (k u : ℕ) :
    DeepTwoTowerModel.denseKernelGrad 0 input dOut k u = 0 := by
  simp [DeepTwoTowerModel.denseKernelGrad]

lemma denseBiasGrad_zero_batch (dOut : ℕ → ℕ → ℝ) (u : ℕ) :
    DeepTwoTowerModel.denseBiasGrad 0 dOut u = 0 := by
  simp [DeepTwoTowerModel.denseBiasGrad]

lemma deep_itemForward_nil (s : DeepTwoTowerModel) : s.itemForward [] [] = .ok [] := by
  simp [DeepTwoTowerModel.itemForward, DeepTwoTowerModel.itemEmbsRaw, gather]

lemma deep_trainStep_nil (s : DeepTwoTowerModel) : s.trainStep [] [] [] = .ok (0, s) := by
  rw [DeepTwoTowerModel.trainStep, deep_itemForward_nil]
  simp only [List.length_nil]
  rw [adamUpdateMat_zero _ (scatterGrad_nil _), adamUpdateMat_zero _ (scatterGrad_nil _),
    adamUpdateMat_zero _ (denseKernelGrad_zero_batch _ _),
    adamUpdateMat_zero _ (denseKernelGrad_zero_batch _ _),
    adamUpdateMat_zero _ (denseKernelGrad_zero_batch _ _),
    adamUpdateMat_zero _ (denseKernelGrad_zero_batch _ _),
    adamUpdateVec_zero _ (denseBiasGrad_zero_batch _),
    adamUpdateVec_zero _ (denseBiasGrad_zero_batch _),
    adamUpdateVec_zero _ (denseBiasGrad_zero_batch _),
    adamUpdateVec_zero _ (denseBiasGrad_zero_batch _)]
  simp [DeepTwoTowerModel.lossValue, DeepTwoTowerModel.logitsOf,
    DeepTwoTowerModel.userForward, DeepTwoTowerModel.itemEmbsRaw, gather,
    softmaxCrossEntropy, matMulT]

/-! ### Chunked inference equals unchunked inference -/

lemma itemForward_zeroGenres (s : DeepTwoTowerModel) (idx : List ℕ) :
    s.itemForward idx (idx.map (fun _ => List.replicate s.numGenres (0 : ℝ))) =
      .ok (idx.map (fun i =>
        s.itemEncodeRow (s.itemEmbeddings.getD i [] ++ List.replicate s.numGenres 0))) := by
  rw [DeepTwoTowerModel.itemForward]
  have hc : ((idx.map (fun _ => List.replicate s.numGenres (0 : ℝ))).map List.length).sum =
      idx.length * s.numGenres := by
    rw [List.map_map]
    have hcomp : (List.length ∘ fun _ : ℕ => List.replicate s.numGenres (0 : ℝ)) =
        fun _ => s.numGenres := by
      funext x; simp
    rw [hcomp, List.map_const', List.sum_replicate, smul_eq_mul]
  rw [if_pos hc]
  congr 1
  rw [DeepTwoTowerModel.itemEmbsRaw, gather, List.zipWith_map, List.zipWith_same]

/-- Concatenating the contiguous chunks `[i*c, min (i*c + c) N)` for
`i < k` covers exactly `[0, min (k*c) N)`. -/
lemma chunks_concat (c N : ℕ) (f : ℕ → ℝ) :
    ∀ k, (List.range k).flatMap (fun i =>
        (List.range (min (i * c + c) N - i * c)).map (fun j => f (i * c + j))) =
      (List.range (min (k * c) N)).map f := by
  intro k
  induction k with
  | zero => simp
  | succ k ih =>
    rw [List.range_succ, List.flatMap_append, ih]
    simp only [List.flatMap_cons, List.flatMap_nil, List.append_nil]
    rcases le_or_lt N (k * c) with hle | hlt
    · have h1 : min (k * c) N = N := min_eq_right hle
      have h2 : min ((k + 1) * c) N = N :=
        min_eq_right (le_trans hle (by rw [Nat.succ_mul]; exact Nat.le_add_right _ _))
      have h3 : min (k * c + c) N - k * c = 0 := by
        have h4 : min (k * c + c) N = N := min_eq_right (le_trans hle (Nat.le_add_right _ _))
        omega
      rw [h1, h2, h3]; simp
    · set m := k * c with hm
      have h1 : min m N = m := min_eq_left (le_of_lt hlt)
      set d := min c (N - m) with hd
      have h2 : min (m + c) N = m + d := by omega
      have h3 : min ((k + 1) * c) N = m + d := by rw [Nat.succ_mul, ← hm]; omega
      rw [h1, h2, h3, Nat.add_sub_cancel_left, List.range_add, List.map_append,
        List.map_map]
      simp [Function.comp]

/-- For a positive chunk size, `ceil (N / c) * c` covers all of `[0, N)`. -/
lemma ceil_mul_ge (N c : ℕ) (hc : 0 < c) : N ≤ ((N + c - 1) / c) * c := by
  rcases Nat.eq_zero_or_pos N with h0 | hN
  · simp [h0]
  · have h1 : N + c - 1 = (N - 1) + c := by omega
    rw [h1, Nat.add_div_right _ hc]
    have hdm := (Nat.div_add_mod (N - 1) c).symm
    have hmod : (N - 1) % c < c := Nat.mod_lt _ hc
    have h2 : N - 1 < ((N - 1) / c + 1) * c := by
      calc N - 1 = c * ((N - 1) / c) + (N - 1) % c := hdm
        _ < c * ((N - 1) / c) + c := Nat.add_lt_add_left hmod _
        _ = ((N - 1) / c + 1) * c := by ring
    have h3 := Nat.succ_le_of_lt h2
    rwa [Nat.succ_eq_add_one, Nat.sub_add_cancel hN] at h3

/-- Each chunk of the inference loop scores exactly its index window. -/
lemma scoreChunk_eq (s : DeepTwoTowerModel) (c : ℕ) (u : Vec) (i : ℕ) :
    s.scoreChunk c u i =
      (List.range (min (i * c + c) s.numItems - i * c)).map (fun j =>
        dotRL (s.itemEncodeRow
          (s.itemEmbeddings.getD (i * c + j) [] ++ List.replicate s.numGenres 0)) u) := by
  rw [DeepTwoTowerModel.scoreChunk]
  rw [itemForward_zeroGenres]
  simp only [List.map_map]
  rfl

/-- Chunked all-items scoring equals the unchunked computation, for every
positive chunk size. -/
lemma scoresChunked_eq_scoresAll (s : DeepTwoTowerModel) (c : ℕ) (hc : 0 < c) (u : Vec) :
    s.scoresChunked c u = s.scoresAll u := by
  rw [DeepTwoTowerModel.scoresChunked, DeepTwoTowerModel.scoresAll]
  have hbody : ∀ i : ℕ, s.scoreChunk c u i =
      (List.range (min (i * c + c) s.numItems - i * c)).map (fun j =>
        (fun x => dotRL (s.itemEncodeRow
          (s.itemEmbeddings.getD x [] ++ List.replicate s.numGenres 0)) u) (i * c + j)) :=
    scoreChunk_eq s c u
  rw [funext hbody, chunks_concat c s.numItems
    (fun x => dotRL (s.itemEncodeRow
      (s.itemEmbeddings.getD x [] ++ List.replicate s.numGenres 0)) u)
    ((s.numItems + c - 1) / c)]
  have hcover : min (((s.numItems + c - 1) / c) * c) s.numItems = s.numItems :=
    min_eq_right (ceil_mul_ge s.numItems c hc)
  rw [hcover]

/-! ### The similarity matrix and the loss in closed form -/

lemma matMulT_entry (A B : Mat) (i j : ℕ) (hi : i < A.length) (hj : j < B.length) :
    ((matMulT A B).getD i []).getD j 0 = dotRL (A.getD i []) (B.getD j []) := by
  have hA := List.getElem?_eq_getElem hi
  have hB := List.getElem?_eq_getElem hj
  simp [matMulT, List.getD_eq_getElem?_getD, List.getElem?_map, hA, hB]

lemma matMulT_row_length (A B : Mat) (i : ℕ) (hi : i < A.length) :
    ((matMulT A B).getD i []).length = B.length := by
  have hA := List.getElem?_eq_getElem hi
  simp [matMulT, List.getD_eq_getElem?_getD, List.getElem?_map, hA]

lemma length_matMulT (A B : Mat) : (matMulT A B).length = A.length := by
  simp [matMulT]

/-- Multiplying a row against a one-hot vector picks out one coordinate. -/
lemma oneHot_dot (row : Vec) (i : ℕ) (hi : i < row.length) :
    (List.zipWith (· * ·)
        ((List.range row.length).map (fun j => if j = i then (1 : ℝ) else 0)) row).sum =
      row.getD i 0 := by
  rw [zipWith_map_range (· * ·) 0 row (fun j => if j = i then (1 : ℝ) else 0)]
  rw [sum_map_range]
  have hsel : ∀ j, (if j = i then (1 : ℝ) else 0) * row.getD j 0 =
      if j = i then row.getD j 0 else 0 := by
    intro j; by_cases h : j = i <;> simp [h]
  simp only [hsel]
  rw [Finset.sum_ite_eq' (Finset.range row.length) i (fun j => row.getD j 0)]
  simp [Finset.mem_range.mpr hi]

/-- The library's per-row loss `logSumExp z - z_i` is exactly the negative
log-probability the softmax assigns to class `i`. -/
lemma neg_log_softmaxP (row : Vec) (i : ℕ) (h : row ≠ []) :
    -(Real.log (softmaxP row i)) = logSumExp row - row.getD i 0 := by
  rw [softmaxP, logSumExp,
    Real.log_div (Real.exp_ne_zero _) (ne_of_gt (sum_map_exp_pos row h)), Real.log_exp]
  ring

/-- `tf.losses.softmaxCrossEntropy` against the diagonal one-hot labels is the
mean over rows of the negative log softmax probability at the diagonal. -/
lemma softmaxCrossEntropy_oneHot (logits : Mat) (B : ℕ) (hlen : logits.length = B)
    (hrow : ∀ i < B, (logits.getD i []).length = B) (hB : 0 < B) :
    softmaxCrossEntropy (oneHotLabels B) logits =
      ((List.range B).map
        (fun i => -(Real.log (softmaxP (logits.getD i []) i)))).sum / (B : ℝ) := by
  subst hlen
  rw [softmaxCrossEntropy, oneHotLabels]
  rw [zipWith_map_range softmaxXentRow [] logits
    (fun i => (List.range logits.length).map (fun j => if j = i then (1 : ℝ) else 0))]
  rw [sum_map_range, sum_map_range]
  congr 1
  refine Finset.sum_congr rfl (fun i hi => ?_)
  have hiB : i < logits.length := Finset.mem_range.mp hi
  have hrl : (logits.getD i []).length = logits.length := hrow i hiB
  have hne : logits.getD i [] ≠ [] := by
    have : 0 < (logits.getD i []).length := hrl ▸ hB
    exact List.ne_nil_of_length_pos this
  rw [neg_log_softmaxP _ _ hne, softmaxXentRow]
  congr 1
  rw [← hrl] at hiB ⊢
  exact oneHot_dot (logits.getD i []) i hiB

/-! ### Remaining small helpers -/

lemma length_gather (table : Mat) (idx : List ℕ) : (gather table idx).length = idx.length := by
  simp [gather]

lemma denseApply_length (kernel : Mat) (bias : Vec) (act : ℝ → ℝ) (x : Vec) :
    (denseApply kernel bias act x).length = bias.length := by
  simp [denseApply, denseAffine]

lemma map_eq_map_range_getD {α β : Type} (dflt : α) (f : α → β) (l : List α) :
    l.map f = (List.range l.length).map (fun i => f (l.getD i dflt)) := by
  refine List.ext_getElem (by simp) (fun i h1 h2 => ?_)
  have hi : i < l.length := by simpa using h1
  simp [List.getD_eq_getElem?_getD, List.getElem?_eq_getElem hi]

lemma adamUpdateMat_untouched (g : ℕ → ℕ → ℝ) (W : Mat) (r : ℕ) (h : ∀ d, g r d = 0) :
    (adamUpdateMat g W).getD r [] = W.getD r [] := by
  rw [adamUpdateMat_getD]
  exact adamVecFrom_zero _ h 0 _

lemma sum_map_length_const (c : ℕ) (l : Mat) (h : ∀ g ∈ l, g.length = c) :
    (l.map List.length).sum = l.length * c := by
  induction l with
  | nil => simp
  | cons row rest ih =>
    have hrow : row.length = c := h row (List.mem_cons_self row rest)
    have hrest : ∀ g ∈ rest, g.length = c := fun g hg => h g (List.mem_cons_of_mem row hg)
    simp [hrow, ih hrest, Nat.succ_mul, Nat.add_comm]

/-! ## Claim theorems -/

/-- C6: `getUserEmbedding` and `getScoresForAllItems` are read-only on both
models: the model state after either call is exactly the state before, so
every parameter (embedding tables and, for the deep variant, the
feed-forward kernels and biases) is unchanged. -/
theorem c6_inference_read_only (sb : BasicTwoTowerModel) (sd : DeepTwoTowerModel)
    (userIndex : ℕ) (userEmbedding : Vec) :
    (sb.getUserEmbedding userIndex).2 = sb ∧
    (sb.getScoresForAllItems userEmbedding).2 = sb ∧
    (sd.getUserEmbedding userIndex).2 = sd ∧
    (sd.getScoresForAllItems userEmbedding).2 = sd :=
  ⟨rfl, rfl, rfl, rfl⟩

/-- C8: the Scorer (`tf.sum(tf.mul(u, v), -1)`, identical in both models) is
commutative in its two arguments for equal-shape inputs: per-row dot products
commute. -/
theorem c8_score_commutative (u v : Mat) (x y : Vec)
    (_hshape : u.map List.length = v.map List.length) (_hxy : x.length = y.length) :
    BasicTwoTowerModel.score u v = BasicTwoTowerModel.score v u ∧
    DeepTwoTowerModel.score u v = DeepTwoTowerModel.score v u ∧
    BasicTwoTowerModel.scoreVec x y = BasicTwoTowerModel.scoreVec y x := by
  have hdot : ∀ a b : Vec, dotRL a b = dotRL b a := by
    intro a b
    rw [dotRL, dotRL, List.zipWith_comm_of_comm _ mul_comm]
  refine ⟨?_, ?_, hdot x y⟩
  · rw [BasicTwoTowerModel.score, BasicTwoTowerModel.score,
      List.zipWith_comm_of_comm dotRL hdot]
  · rw [DeepTwoTowerModel.score, DeepTwoTowerModel.score,
      List.zipWith_comm_of_comm dotRL hdot]

/-- C8 witness: the commutativity theorem instantiated on concrete
equal-shape matrices and vectors. -/
theorem c8_score_commutative_witness :
    BasicTwoTowerModel.score [[(1 : ℝ), 2]] [[(3 : ℝ), 4]] =
      BasicTwoTowerModel.score [[(3 : ℝ), 4]] [[(1 : ℝ), 2]] ∧
    DeepTwoTowerModel.score [[(1 : ℝ), 2]] [[(3 : ℝ), 4]] =
      DeepTwoTowerModel.score [[(3 : ℝ), 4]] [[(1 : ℝ), 2]] ∧
    BasicTwoTowerModel.scoreVec [(5 : ℝ)] [(7 : ℝ)] =
      BasicTwoTowerModel.scoreVec [(7 : ℝ)] [(5 : ℝ)] :=
  c8_score_commutative [[(1 : ℝ), 2]] [[(3 : ℝ), 4]] [(5 : ℝ)] [(7 : ℝ)] rfl rfl

/-- C5: the deep item tower consumes `embedding ++ genres` rows of width
`D + 19`, its hidden layer has width `2 * D` with ReLU activation and bias,
its output layer width `D` with identity (linear) activation and bias; every
feed-forward layer is configured with the Glorot-normal kernel initializer
and the zero bias initializer; and the user tower has the same two-layer
shape on inputs of width exactly `D` (no side features). -/
theorem c5_deep_tower_architecture (s : DeepTwoTowerModel) (x g : Vec)
    (hx : x.length = s.embeddingDim) (hg : g.length = s.numGenres)
    (hgen : s.numGenres = 19)
    (hb1 : s.itemHiddenBias.length = 2 * s.embeddingDim)
    (hb2 : s.itemOutputBias.length = s.embeddingDim)
    (hub1 : s.userHiddenBias.length = 2 * s.embeddingDim)
    (hub2 : s.userOutputBias.length = s.embeddingDim) :
    s.itemHiddenConfig = ⟨2 * s.embeddingDim, .relu, true, .glorotNormal, .zeros⟩ ∧
    s.itemOutputConfig = ⟨s.embeddingDim, .linear, true, .glorotNormal, .zeros⟩ ∧
    s.userHiddenConfig = ⟨2 * s.embeddingDim, .relu, true, .glorotNormal, .zeros⟩ ∧
    s.userOutputConfig = ⟨s.embeddingDim, .linear, true, .glorotNormal, .zeros⟩ ∧
    (x ++ g).length = s.embeddingDim + 19 ∧
    (denseApply s.itemHiddenKernel s.itemHiddenBias
      (s.itemHiddenConfig.activation.toFun) (x ++ g)).length = 2 * s.embeddingDim ∧
    (s.itemEncodeRow (x ++ g)).length = s.embeddingDim ∧
    (denseApply s.userHiddenKernel s.userHiddenBias
      (s.userHiddenConfig.activation.toFun) x).length = 2 * s.embeddingDim ∧
    (s.userEncodeRow x).length = s.embeddingDim := by
  refine ⟨?_, ?_, ?_, ?_, ?_, ?_, ?_, ?_, ?_⟩
  · simp [DeepTwoTowerModel.itemHiddenConfig, Nat.mul_comm]
  · simp [DeepTwoTowerModel.itemOutputConfig]
  · simp [DeepTwoTowerModel.userHiddenConfig, Nat.mul_comm]
  · simp [DeepTwoTowerModel.userOutputConfig]
  · simp [hx, hg, hgen]
  · rw [denseApply_length, hb1]
  · rw [DeepTwoTowerModel.itemEncodeRow, denseApply_length, hb2]
  · rw [denseApply_length, hub1]
  · rw [DeepTwoTowerModel.userEncodeRow, denseApply_length, hub2]

/-- C5 witness: the architecture theorem instantiated on `deepState19`
(embedding width 1, 19 genres) with a width-1 embedding row and a width-19
genre row. -/
theorem c5_deep_tower_architecture_witness :
    deepState19.itemHiddenConfig = ⟨2 * deepState19.embeddingDim, .relu, true,
      .glorotNormal, .zeros⟩ ∧
    deepState19.itemOutputConfig = ⟨deepState19.embeddingDim, .linear, true,
      .glorotNormal, .zeros⟩ ∧
    deepState19.userHiddenConfig = ⟨2 * deepState19.embeddingDim, .relu, true,
      .glorotNormal, .zeros⟩ ∧
    deepState19.userOutputConfig = ⟨deepState19.embeddingDim, .linear, true,
      .glorotNormal, .zeros⟩ ∧
    (([(5 : ℝ)] ++ List.replicate 19 (0 : ℝ)).length = deepState19.embeddingDim + 19) ∧
    (denseApply deepState19.itemHiddenKernel deepState19.itemHiddenBias
      (deepState19.itemHiddenConfig.activation.toFun)
      ([(5 : ℝ)] ++ List.replicate 19 (0 : ℝ))).length = 2 * deepState19.embeddingDim ∧
    (deepState19.itemEncodeRow ([(5 : ℝ)] ++ List.replicate 19 (0 : ℝ))).length =
      deepState19.embeddingDim ∧
    (denseApply deepState19.userHiddenKernel deepState19.userHiddenBias
      (deepState19.userHiddenConfig.activation.toFun) [(5 : ℝ)]).length =
      2 * deepState19.embeddingDim ∧
    (deepState19.userEncodeRow [(5 : ℝ)]).length = deepState19.embeddingDim :=
  c5_deep_tower_architecture deepState19 [(5 : ℝ)] (List.replicate 19 (0 : ℝ))
    rfl (by simp [deepState19]) rfl rfl rfl rfl rfl

/-- C7: on a batch of item indices, the deep item tower succeeds when every
genre side-feature row has width 19 (= the model's genre count) and one row
is supplied per index, and fails fast at encode time with a
DimensionMismatch error when the rows have width 18 and the batch is
non-empty. -/
theorem c7_itemForward_genre_width (s : DeepTwoTowerModel) (is : List ℕ)
    (gs19 gs18 : Mat) (hgen : s.numGenres = 19)
    (h19len : gs19.length = is.length) (h19w : ∀ g ∈ gs19, g.length = 19)
    (h18len : gs18.length = is.length) (h18w : ∀ g ∈ gs18, g.length = 18)
    (hne : is ≠ []) :
    (∃ m, s.itemForward is gs19 = .ok m) ∧
    s.itemForward is gs18 = .error .dimensionMismatch := by
  constructor
  · refine ⟨s.itemEmbsRaw is gs19, ?_⟩
    rw [DeepTwoTowerModel.itemForward, if_pos]
    rw [sum_map_length_const 19 gs19 h19w, h19len, hgen]
  · rw [DeepTwoTowerModel.itemForward, if_neg]
    rw [sum_map_length_const 18 gs18 h18w, h18len, hgen]
    have hpos : 0 < is.length := List.length_pos.mpr hne
    omega

/-- C7 witness: the genre-width theorem instantiated on `deepState19` with a
singleton batch, one width-19 genre row and one width-18 genre row. -/
theorem c7_itemForward_genre_width_witness :
    (∃ m, deepState19.itemForward [0] [List.replicate 19 (0 : ℝ)] = .ok m) ∧
    deepState19.itemForward [0] [List.replicate 18 (0 : ℝ)] =
      .error .dimensionMismatch :=
  c7_itemForward_genre_width deepState19 [0]
    [List.replicate 19 (0 : ℝ)] [List.replicate 18 (0 : ℝ)]
    rfl rfl (by simp) rfl (by simp) (by simp)

/-- C10: the deep `getScoresForAllItems` feeds the all-zeros genre matrix to
`itemForward` for every chunk, unconditionally: the scores equal the
encoding of each base item-embedding row concatenated with the zero genre
vector, and any two states agreeing on the item embedding table, the
item-tower weights, `numItems` and `numGenres` produce identical scores —
real genre vectors are never consulted. -/
theorem c10_inference_zero_genres (s s' : DeepTwoTowerModel) (u : Vec)
    (hItems : s.numItems = s'.numItems) (hGen : s.numGenres = s'.numGenres)
    (hTab : s.itemEmbeddings = s'.itemEmbeddings)
    (hHK : s.itemHiddenKernel = s'.itemHiddenKernel)
    (hHB : s.itemHiddenBias = s'.itemHiddenBias)
    (hOK : s.itemOutputKernel = s'.itemOutputKernel)
    (hOB : s.itemOutputBias = s'.itemOutputBias) :
    (s.getScoresForAllItems u).1 =
      (List.range s.numItems).map (fun i =>
        dotRL (s.itemEncodeRow
          (s.itemEmbeddings.getD i [] ++ List.replicate s.numGenres 0)) u) ∧
    (s.getScoresForAllItems u).1 = (s'.getScoresForAllItems u).1 := by
  have h1 : ∀ t : DeepTwoTowerModel, (t.getScoresForAllItems u).1 = t.scoresAll u :=
    fun t => scoresChunked_eq_scoresAll t 100 (by norm_num) u
  refine ⟨h1 s, ?_⟩
  rw [h1 s, h1 s']
  simp only [DeepTwoTowerModel.scoresAll, DeepTwoTowerModel.itemEncodeRow,
    DeepTwoTowerModel.itemHiddenConfig, DeepTwoTowerModel.itemOutputConfig,
    hItems, hGen, hTab, hHK, hHB, hOK, hOB]

/-- C10 witness: the theorem instantiated on `deepState0` and its user-side
variant `deepState0UserVariant`, which differ only in user-side parameters. -/
theorem c10_inference_zero_genres_witness :
    (deepState0.getScoresForAllItems [(1 : ℝ)]).1 =
      (List.range deepState0.numItems).map (fun i =>
        dotRL (deepState0.itemEncodeRow
          (deepState0.itemEmbeddings.getD i [] ++
            List.replicate deepState0.numGenres 0)) [(1 : ℝ)]) ∧
    (deepState0.getScoresForAllItems [(1 : ℝ)]).1 =
      (deepState0UserVariant.getScoresForAllItems [(1 : ℝ)]).1 :=
  c10_inference_zero_genres deepState0 deepState0UserVariant [(1 : ℝ)]
    rfl rfl rfl rfl rfl rfl rfl

/-- C2: `getScoresForAllItems` returns a vector of length exactly `numItems`,
ordered by dense item index; the deep variant's fixed-size contiguous
chunking (zero-filled side features, chunk scores concatenated in index
order) yields the same vector for every positive chunk size — in particular
the source's chunk size 100 equals the unchunked full computation, and the
basic variant's single full dot product also lists the items in index
order. -/
theorem c2_scores_chunk_invariance (sb : BasicTwoTowerModel) (sd : DeepTwoTowerModel)
    (u v : Vec) (c : ℕ) (hc : 0 < c)
    (hwf : sb.itemEmbeddings.length = sb.numItems) :
    (sb.getScoresForAllItems u).1.length = sb.numItems ∧
    (sb.getScoresForAllItems u).1 =
      (List.range sb.numItems).map (fun i => dotRL (sb.itemEmbeddings.getD i []) u) ∧
    sd.scoresChunked c v = sd.scoresAll v ∧
    (sd.getScoresForAllItems v).1 = sd.scoresAll v ∧
    (sd.getScoresForAllItems v).1.length = sd.numItems ∧
    sd.scoresChunked c v = (sd.getScoresForAllItems v).1 := by
  have hb : (sb.getScoresForAllItems u).1 =
      (List.range sb.numItems).map (fun i => dotRL (sb.itemEmbeddings.getD i []) u) := by
    rw [BasicTwoTowerModel.getScoresForAllItems]
    rw [matVec, map_eq_map_range_getD ([] : Vec) (fun r => dotRL r u) sb.itemEmbeddings, hwf]
  have hd100 : (sd.getScoresForAllItems v).1 = sd.scoresAll v :=
    scoresChunked_eq_scoresAll sd 100 (by norm_num) v
  have hdc : sd.scoresChunked c v = sd.scoresAll v :=
    scoresChunked_eq_scoresAll sd c hc v
  refine ⟨?_, hb, hdc, hd100, ?_, ?_⟩
  · rw [hb]; simp
  · rw [hd100, DeepTwoTowerModel.scoresAll]; simp
  · rw [hdc, hd100]

/-- C2 witness: the chunk-invariance theorem instantiated on `basicState0`
and `deepState0` with chunk size 3. -/
theorem c2_scores_chunk_invariance_witness :
    (basicState0.getScoresForAllItems [(1 : ℝ)]).1.length = basicState0.numItems ∧
    (basicState0.getScoresForAllItems [(1 : ℝ)]).1 =
      (List.range basicState0.numItems).map
        (fun i => dotRL (basicState0.itemEmbeddings.getD i []) [(1 : ℝ)]) ∧
    deepState0.scoresChunked 3 [(1 : ℝ)] = deepState0.scoresAll [(1 : ℝ)] ∧
    (deepState0.getScoresForAllItems [(1 : ℝ)]).1 = deepState0.scoresAll [(1 : ℝ)] ∧
    (deepState0.getScoresForAllItems [(1 : ℝ)]).1.length = deepState0.numItems ∧
    deepState0.scoresChunked 3 [(1 : ℝ)] = (deepState0.getScoresForAllItems [(1 : ℝ)]).1 :=
  c2_scores_chunk_invariance basicState0 deepState0 [(1 : ℝ)] [(1 : ℝ)] 3
    (by norm_num) rfl

/-- C9: the scalar `trainStep` returns is the loss evaluated at the
parameters as they were before the step's Adam update: the basic step's
first component is `lossValue` of the pre-call state, and a successful deep
step returns the pre-call `lossValue` — the returned loss does not reflect
the update it triggers. -/
theorem c9_loss_evaluated_pre_update (sb : BasicTwoTowerModel) (sd : DeepTwoTowerModel)
    (us is : List ℕ) (gs : Mat) (l : ℝ) (sd' : DeepTwoTowerModel)
    (h : sd.trainStep us is gs = .ok (l, sd')) :
    (sb.trainStep us is).1 = sb.lossValue us is ∧ l = sd.lossValue us is gs := by
  refine ⟨rfl, ?_⟩
  rw [DeepTwoTowerModel.trainStep] at h
  cases hif : sd.itemForward is gs with
  | error e => rw [hif] at h; simp at h
  | ok m =>
    rw [hif] at h
    simp only [Except.ok.injEq, Prod.mk.injEq] at h
    exact h.1.symm

/-- C9 witness: the pre-update-loss theorem instantiated on `basicState0` and
`deepState0` with the empty batch, whose deep step returns
`.ok (0, deepState0)`. -/
theorem c9_loss_evaluated_pre_update_witness :
    (basicState0.trainStep [] []).1 = basicState0.lossValue [] [] ∧
    (0 : ℝ) = deepState0.lossValue [] [] [] :=
  c9_loss_evaluated_pre_update basicState0 deepState0 [] [] [] 0 deepState0
    (deep_trainStep_nil deepState0)

/-- C1: for a non-empty batch of B (user, item) pairs, the similarity matrix
of `trainStep` has entry `(i, j)` equal to the dot product of the `i`-th user
embedding and the `j`-th item embedding (the tower outputs), and the returned
loss is the softmax cross-entropy of each row against a one-hot label at
column `i`, averaged over the B rows — in both models. -/
theorem c1_logits_and_loss (sb : BasicTwoTowerModel) (sd : DeepTwoTowerModel)
    (us is : List ℕ) (gs : Mat)
    (hB : 0 < us.length) (hlen : is.length = us.length) (hgs : gs.length = is.length) :
    (∀ i < us.length, ∀ j < us.length,
      ((sb.logitsOf us is).getD i []).getD j 0 =
        dotRL ((sb.userForward us).getD i []) ((sb.itemForward is).getD j [])) ∧
    sb.lossValue us is =
      ((List.range us.length).map
        (fun i => -(Real.log (softmaxP ((sb.logitsOf us is).getD i []) i)))).sum /
        (us.length : ℝ) ∧
    (∀ i < us.length, ∀ j < us.length,
      ((sd.logitsOf us is gs).getD i []).getD j 0 =
        dotRL ((sd.userForward us).getD i []) ((sd.itemEmbsRaw is gs).getD j [])) ∧
    sd.lossValue us is gs =
      ((List.range us.length).map
        (fun i => -(Real.log (softmaxP ((sd.logitsOf us is gs).getD i []) i)))).sum /
        (us.length : ℝ) := by
  have hbu : (sb.userForward us).length = us.length := by
    rw [BasicTwoTowerModel.userForward, length_gather]
  have hbi : (sb.itemForward is).length = us.length := by
    rw [BasicTwoTowerModel.itemForward, length_gather, hlen]
  have hdu : (sd.userForward us).length = us.length := by
    rw [DeepTwoTowerModel.userForward, List.length_map, length_gather]
  have hdi : (sd.itemEmbsRaw is gs).length = us.length := by
    rw [DeepTwoTowerModel.itemEmbsRaw, List.length_zipWith, length_gather, hgs, hlen]
    simp
  refine ⟨?_, ?_, ?_, ?_⟩
  · intro i hi j hj
    exact matMulT_entry _ _ i j (hbu ▸ hi) (hbi ▸ hj)
  · rw [BasicTwoTowerModel.lossValue]
    refine softmaxCrossEntropy_oneHot _ us.length ?_ ?_ hB
    · rw [BasicTwoTowerModel.logitsOf, length_matMulT, hbu]
    · intro i hi
      rw [BasicTwoTowerModel.logitsOf, matMulT_row_length _ _ i (hbu ▸ hi), hbi]
  · intro i hi j hj
    exact matMulT_entry _ _ i j (hdu ▸ hi) (hdi ▸ hj)
  · rw [DeepTwoTowerModel.lossValue]
    refine softmaxCrossEntropy_oneHot _ us.length ?_ ?_ hB
    · rw [DeepTwoTowerModel.logitsOf, length_matMulT, hdu]
    · intro i hi
      rw [DeepTwoTowerModel.logitsOf, matMulT_row_length _ _ i (hdu ▸ hi), hdi]

/-- C1 witness: the logits/loss theorem instantiated on `basicState0` and
`deepState0` with the singleton batch `[(0, 0)]` and one genre row. -/
theorem c1_logits_and_loss_witness :
    (∀ i < ([0] : List ℕ).length, ∀ j < ([0] : List ℕ).length,
      ((basicState0.logitsOf [0] [0]).getD i []).getD j 0 =
        dotRL ((basicState0.userForward [0]).getD i [])
          ((basicState0.itemForward [0]).getD j [])) ∧
    basicState0.lossValue [0] [0] =
      ((List.range ([0] : List ℕ).length).map
        (fun i => -(Real.log (softmaxP ((basicState0.logitsOf [0] [0]).getD i []) i)))).sum /
        (([0] : List ℕ).length : ℝ) ∧
    (∀ i < ([0] : List ℕ).length, ∀ j < ([0] : List ℕ).length,
      ((deepState0.logitsOf [0] [0] [[(0 : ℝ)]]).getD i []).getD j 0 =
        dotRL ((deepState0.userForward [0]).getD i [])
          ((deepState0.itemEmbsRaw [0] [[(0 : ℝ)]]).getD j [])) ∧
    deepState0.lossValue [0] [0] [[(0 : ℝ)]] =
      ((List.range ([0] : List ℕ).length).map
        (fun i => -(Real.log
          (softmaxP ((deepState0.logitsOf [0] [0] [[(0 : ℝ)]]).getD i []) i)))).sum /
        (([0] : List ℕ).length : ℝ) :=
  c1_logits_and_loss basicState0 deepState0 [0] [0] [[(0 : ℝ)]]
    (by decide) rfl rfl

/-- C4 counterexample: for the valid batch `[(0, 0), (1, 1)]` of size 2 on
`basicState2` (2 users, 2 items, embedding width 1, every table row `[1]`),
all four embedding rows appear in the batch, yet `trainStep` leaves both
tables exactly unchanged: every logit equals 1, each softmax row is uniform
(`1/2`), and the in-batch softmax gradients cancel, so rows appearing in the
batch need not differ from their pre-call values. -/
theorem c4_counterexample :
    ((0 : ℕ) ∈ ([0, 1] : List ℕ)) ∧ ((1 : ℕ) ∈ ([0, 1] : List ℕ)) ∧
    (basicState2.trainStep [0, 1] [0, 1]).2.userEmbeddings = basicState2.userEmbeddings ∧
    (basicState2.trainStep [0, 1] [0, 1]).2.itemEmbeddings = basicState2.itemEmbeddings := by
  have hlog : basicState2.logitsOf [0, 1] [0, 1] = [[1, 1], [1, 1]] := by
    simp [BasicTwoTowerModel.logitsOf, BasicTwoTowerModel.userForward,
      BasicTwoTowerModel.itemForward, gather, matMulT, dotRL, basicState2]
  have h2e : (Real.exp 1 + (Real.exp 1 + 0)) ≠ 0 := by positivity
  have hsoft0 : softmaxP [(1 : ℝ), 1] 0 = 1 / 2 := by
    rw [softmaxP]
    simp only [List.getD_cons_zero, List.map_cons, List.map_nil, List.sum_cons, List.sum_nil]
    rw [div_eq_iff h2e]; ring
  have hsoft1 : softmaxP [(1 : ℝ), 1] 1 = 1 / 2 := by
    rw [softmaxP]
    simp only [List.getD_cons_succ, List.getD_cons_zero, List.map_cons, List.map_nil,
      List.sum_cons, List.sum_nil]
    rw [div_eq_iff h2e]; ring
  have hdl : ∀ i j, i < 2 → j < 2 →
      dLogits [[(1 : ℝ), 1], [1, 1]] 2 i j = (1 / 2 - if i = j then 1 else 0) / 2 := by
    intro i j hi hj
    rw [dLogits]
    interval_cases i <;> interval_cases j <;> simp [hsoft0, hsoft1]
  have hr2 : List.range 2 = [0, 1] := rfl
  have hV : basicState2.itemForward [0, 1] = [[(1 : ℝ)], [1]] := by
    simp [BasicTwoTowerModel.itemForward, gather, basicState2]
  have hU : basicState2.userForward [0, 1] = [[(1 : ℝ)], [1]] := by
    simp [BasicTwoTowerModel.userForward, gather, basicState2]
  have hpU : ∀ p d, p < 2 →
      perPosUserGrad (basicState2.logitsOf [0, 1] [0, 1])
        (basicState2.itemForward [0, 1]) 2 p d = 0 := by
    intro p d hp2
    rw [perPosUserGrad, hlog, hV, hr2]
    interval_cases p
    · rw [List.map_cons, List.map_cons, List.map_nil,
        hdl 0 0 (by norm_num) (by norm_num), hdl 0 1 (by norm_num) (by norm_num)]
      simp only [List.sum_cons, List.sum_nil]
      norm_num
    · rw [List.map_cons, List.map_cons, List.map_nil,
        hdl 1 0 (by norm_num) (by norm_num), hdl 1 1 (by norm_num) (by norm_num)]
      simp only [List.sum_cons, List.sum_nil]
      norm_num
  have hpV : ∀ p d, p < 2 →
      perPosItemGrad (basicState2.logitsOf [0, 1] [0, 1])
        (basicState2.userForward [0, 1]) 2 p d = 0 := by
    intro p d hp2
    rw [perPosItemGrad, hlog, hU, hr2]
    interval_cases p
    · rw [List.map_cons, List.map_cons, List.map_nil,
        hdl 0 0 (by norm_num) (by norm_num), hdl 1 0 (by norm_num) (by norm_num)]
      simp only [List.sum_cons, List.sum_nil]
      norm_num
    · rw [List.map_cons, List.map_cons, List.map_nil,
        hdl 0 1 (by norm_num) (by norm_num), hdl 1 1 (by norm_num) (by norm_num)]
      simp only [List.sum_cons, List.sum_nil]
      norm_num
  have hzU : ∀ r d, scatterGrad [0, 1]
      (perPosUserGrad (basicState2.logitsOf [0, 1] [0, 1])
        (basicState2.itemForward [0, 1]) 2) r d = 0 := by
    intro r d
    rw [scatterGrad]
    apply List.sum_eq_zero
    intro x hx
    rcases List.mem_map.mp hx with ⟨p, hpmem, rfl⟩
    exact hpU p d (List.mem_range.mp (List.mem_of_mem_filter hpmem))
  have hzV : ∀ r d, scatterGrad [0, 1]
      (perPosItemGrad (basicState2.logitsOf [0, 1] [0, 1])
        (basicState2.userForward [0, 1]) 2) r d = 0 := by
    intro r d
    rw [scatterGrad]
    apply List.sum_eq_zero
    intro x hx
    rcases List.mem_map.mp hx with ⟨p, hpmem, rfl⟩
    exact hpV p d (List.mem_range.mp (List.mem_of_mem_filter hpmem))
  exact ⟨by decide, by decide, adamUpdateMat_zero _ hzU _, adamUpdateMat_zero _ hzV _⟩

/-- C4 (amended): after one `trainStep` (from freshly initialized optimizer
moments), every embedding-table row whose index does not appear in the batch
receives zero gradient and keeps its exact pre-call value, in both models; a
row whose index does appear in the batch is unchanged precisely when its
accumulated scattered gradient is zero (which can happen, e.g. when the
gathered rows of the batch coincide and the softmax gradients cancel),
rather than always differing — the equivalence is stated for all four
embedding tables; in particular for the batch `[(0,0),(1,1),(2,2)]` item
row 3 is unchanged. -/
theorem c4_untouched_rows_unchanged (sb : BasicTwoTowerModel) (sd : DeepTwoTowerModel)
    (us is : List ℕ) (gs : Mat) (r : ℕ) (l : ℝ) (sd' : DeepTwoTowerModel)
    (hd : sd.trainStep us is gs = .ok (l, sd')) :
    (r ∉ us →
      (sb.trainStep us is).2.userEmbeddings.getD r [] = sb.userEmbeddings.getD r []) ∧
    (r ∉ is →
      (sb.trainStep us is).2.itemEmbeddings.getD r [] = sb.itemEmbeddings.getD r []) ∧
    (r ∉ us → sd'.userEmbeddings.getD r [] = sd.userEmbeddings.getD r []) ∧
    (r ∉ is → sd'.itemEmbeddings.getD r [] = sd.itemEmbeddings.getD r []) ∧
    ((sb.trainStep us is).2.userEmbeddings.getD r [] = sb.userEmbeddings.getD r [] ↔
      ∀ d < (sb.userEmbeddings.getD r []).length,
        scatterGrad us
          (perPosUserGrad (sb.logitsOf us is) (sb.itemForward is) us.length) r d = 0) ∧
    ((sb.trainStep us is).2.itemEmbeddings.getD r [] = sb.itemEmbeddings.getD r [] ↔
      ∀ d < (sb.itemEmbeddings.getD r []).length,
        scatterGrad is
          (perPosItemGrad (sb.logitsOf us is) (sb.userForward us) us.length) r d = 0) ∧
    (sd'.userEmbeddings.getD r [] = sd.userEmbeddings.getD r [] ↔
      ∀ d < (sd.userEmbeddings.getD r []).length,
        scatterGrad us (sd.deltaUserIn us is gs) r d = 0) ∧
    (sd'.itemEmbeddings.getD r [] = sd.itemEmbeddings.getD r [] ↔
      ∀ d < (sd.itemEmbeddings.getD r []).length,
        scatterGrad is (sd.deltaItemIn us is gs) r d = 0) ∧
    (∀ sb3 : BasicTwoTowerModel,
      (sb3.trainStep [0, 1, 2] [0, 1, 2]).2.itemEmbeddings.getD 3 [] =
        sb3.itemEmbeddings.getD 3 []) := by
  rw [DeepTwoTowerModel.trainStep] at hd
  cases hif : sd.itemForward is gs with
  | error e => rw [hif] at hd; simp at hd
  | ok m =>
    rw [hif] at hd
    simp only [Except.ok.injEq, Prod.mk.injEq] at hd
    obtain ⟨-, hs⟩ := hd
    subst hs
    refine ⟨?_, ?_, ?_, ?_, ?_, ?_, ?_, ?_, ?_⟩
    · intro hmem
      exact adamUpdateMat_untouched _ _ _ (fun d => scatterGrad_not_mem _ _ _ hmem d)
    · intro hmem
      exact adamUpdateMat_untouched _ _ _ (fun d => scatterGrad_not_mem _ _ _ hmem d)
    · intro hmem
      exact adamUpdateMat_untouched _ _ _ (fun d => scatterGrad_not_mem _ _ _ hmem d)
    · intro hmem
      exact adamUpdateMat_untouched _ _ _ (fun d => scatterGrad_not_mem _ _ _ hmem d)
    · exact adamUpdateMat_row_eq_self_iff _ _ _
    · exact adamUpdateMat_row_eq_self_iff _ _ _
    · exact adamUpdateMat_row_eq_self_iff _ _ _
    · exact adamUpdateMat_row_eq_self_iff _ _ _
    · intro sb3
      exact adamUpdateMat_untouched _ _ _
        (fun d => scatterGrad_not_mem _ _ _ (by decide) d)

/-- C4 witness: the untouched-rows theorem applied at concrete inputs (the
deep-step hypothesis discharged by its empty-index-list evaluation),
extracting the concrete scenario conjunct: item row 3 is unchanged after
training on the batch `[(0,0),(1,1),(2,2)]`. -/
theorem c4_untouched_rows_unchanged_witness :
    (basicState0.trainStep [0, 1, 2] [0, 1, 2]).2.itemEmbeddings.getD 3 [] =
      basicState0.itemEmbeddings.getD 3 [] :=
  (c4_untouched_rows_unchanged basicState0 deepState0 [] [] [] 1 0 deepState0
    (deep_trainStep_nil deepState0)).2.2.2.2.2.2.2.2 basicState0

end RecSys
